import Mathlib

/-!
Shallow embedding of the HTTP service routing layer (`service.py`):
the `Network`, `Host`, `Partition` and `Controller` classes and the
operations the specification describes.  Byte strings are modelled as
`String` (all protocol constants in the source are ASCII byte literals);
`len` on a byte string is modelled by `String.utf8ByteSize`.  Transport
channels are modelled by the observable data registered on them: a body
is a list of byte chunks.
-/

/-- A response entity body: the sequence of byte chunks registered on an
output channel (Python hands the transport an iterator of chunk tuples). -/
abbrev Body := List String

/-- Modelled from the spec: `http.Structures` is absent from `src/`.  Per the
spec it exposes `request.pathstring`, `request.method`, `request.host` pulled
from the parsed headers, and whether this is the final request in the
pipeline. -/
structure Structures where
  method : String
  pathstring : String
  host : Option String
  final : Bool
deriving DecidableEq, Repr

/-- Modelled from the spec: building `http.Structures` from a request
descriptor `(method, uri, headers)`.  The path is the request URI, the host
is the request's `Host` header, and a request closing the connection is the
final request of its pipeline. -/
def Structures.ofParameters (method uri : String)
    (headers : List (String × String)) : Structures :=
  { method := method
    pathstring := uri
    host := (headers.find? (fun p => p.1 == "Host")).map (fun p => p.2)
    final := headers.contains ("Connection", "close") }

/-- One `_connect_output` registration: the response tuple, the header list
at registration time, and the body channel handed to the transport. -/
structure OutputRegistration where
  resp : Option (String × String × Option Nat)
  headers : List (String × String)
  channel : Option Body
deriving DecidableEq, Repr

/-- `Controller.__init__` state plus the observable effects of its transport
hooks: `accepted` records each argument passed to `_connect_input`
(`accept` calls), `connected` records each `_connect_output` registration,
and `closed` records `invocations.i_close`. -/
structure Controller where
  request : Structures
  channel_id : Nat
  response_headers : List (String × String)
  response : Option (String × String × Option Nat)
  accepted : List (Option Body)
  connected : List OutputRegistration
  closed : Bool
deriving DecidableEq, Repr

/-- `Controller.__init__`: fresh per-request controller. -/
def Controller.init (request : Structures) (channel_id : Nat) : Controller :=
  { request := request
    channel_id := channel_id
    response_headers := []
    response := none
    accepted := []
    connected := []
    closed := false }

/-- `Controller.add_header`. -/
def Controller.add_header (c : Controller) (key value : String) : Controller :=
  { c with response_headers := c.response_headers ++ [(key, value)] }

/-- `Controller.extend_headers`. -/
def Controller.extend_headers (c : Controller)
    (pairs : List (String × String)) : Controller :=
  { c with response_headers := c.response_headers ++ pairs }

/-- `Controller._http_content_headers`: reads the length component of the
stored response tuple (`self._response[-1]`) and appends the content type
and the framing header.  The method is invoked only by `set_response`,
immediately after the response tuple is assigned, so the stored response is
never `none` there (Python would raise a `TypeError` on that branch). -/
def Controller.http_content_headers (c : Controller) (cotype : String) :
    Controller :=
  match c.response with
  | none => c
  | some (_, _, l) =>
    let c := c.add_header "Content-Type" cotype
    match l with
    | none => c.add_header "Transfer-Encoding" "chunked"
    | some n => c.add_header "Content-Length" (toString n)

/-- `Controller.set_response`: unconditionally stores the response tuple and,
when a content type is given, appends the content headers.  The source
performs no check against an already-stored response. -/
def Controller.set_response (c : Controller) (code descr : String)
    (length : Option Nat) (cotype : Option String) : Controller :=
  let c := { c with response := some (code, descr, length) }
  match cotype with
  | none => c
  | some t => c.http_content_headers t

/-- `Controller.connect`: registers the stored response and the body channel
on the request's output channel; on the final request of a pipeline it first
appends `Connection: close` and closes the batch.  The Python response tuple
aliases the live header list, so the headers published are those at
registration time. -/
def Controller.connect (c : Controller) (channel : Option Body) : Controller :=
  if c.request.final then
    let c := c.add_header "Connection" "close"
    { c with
      connected := c.connected ++ [⟨c.response, c.response_headers, channel⟩]
      closed := true }
  else
    { c with
      connected := c.connected ++ [⟨c.response, c.response_headers, channel⟩] }

/-- `Controller.accept`: connects the request entity body to the given
channel (discarding it on `none`). -/
def Controller.accept (c : Controller) (channel : Option Body) : Controller :=
  { c with accepted := c.accepted ++ [channel] }

/-- `Controller.http_continue`: the source body is a single unconditional
`raise Exception("not supported")`. -/
def Controller.http_continue (_c : Controller)
    (_headers : List (String × String)) : Except String Controller :=
  Except.error "not supported"

/-- `Controller.http_iterate_output`: dispatches a streaming transfer whose
flow relays the iterator's chunks onto the request's output channel, then
`connect`s that source.  The external flow machinery is modelled by the
chunk sequence itself. -/
def Controller.http_iterate_output (c : Controller) (iterator : Body) :
    Controller :=
  c.connect (some iterator)

/-- `Controller.http_redirect`. -/
def Controller.http_redirect (c : Controller) (location : String) : Controller :=
  let c := c.add_header "Location" location
  let c := c.set_response "302" "Found" none none
  let c := c.connect none
  c.accept none

/-- `Controller.http_write_output`. -/
def Controller.http_write_output (c : Controller) (cotype : String)
    (data : String) : Controller :=
  let c := c.set_response "200" "OK" (some data.utf8ByteSize) (some cotype)
  c.http_iterate_output [data]

/-- `Partition.__init__` state: the mount path and the derived depth
`path.count('/') - 1` (an integer, `-1` for a path with no separator). -/
structure Partition where
  part_path : String
  part_depth : Int
deriving DecidableEq, Repr

/-- Count of path separators in a mount path (`path.count('/')`). -/
def separatorCount (path : String) : Nat :=
  (path.data.filter (fun ch => ch = '/')).length

/-- `Partition.__init__`. -/
def Partition.init (path : String) : Partition :=
  { part_path := path
    part_depth := (separatorCount path : Int) - 1 }

/-- Python `dict` lookup (`d.get(k)`) over the association-list model of a
(weak value) dictionary. -/
def dictGet {α : Type} (d : List (String × α)) (k : String) : Option α :=
  (d.find? (fun e => e.1 == k)).map (fun e => e.2)

/-- Python `dict` assignment (`d[k] = v`): replaces the value at an existing
key in place, otherwise appends the new binding (dictionaries preserve
insertion order and hold each key at most once). -/
def dictInsert {α : Type} (d : List (String × α)) (k : String) (v : α) :
    List (String × α) :=
  match d with
  | [] => [(k, v)]
  | e :: es => if e.1 == k then (k, v) :: es else e :: dictInsert es k v

/-- Modelled from the spec: `..context.match.SubsequenceScan.get` (the
prefix index is external to `src/`).  Per the spec it returns the most
specific — longest — mounted prefix of the request path, or `none`. -/
def scanGet (keys : List String) (path : String) : Option String :=
  (keys.filter (fun k => k.isPrefixOf path)).foldl
    (fun acc k =>
      match acc with
      | none => some k
      | some m => if m.length < k.length then some k else some m)
    none

/-- Modelled from the spec: the fixed status-code → symbolic-description
table `http.protocoldata.codes` (the `http` module is absent from `src/`);
only the entries the core uses are listed, in their conventional
underscore-separated ASCII form. -/
def protocoldata_codes : Nat → String
  | 200 => "OK"
  | 204 => "NO_CONTENT"
  | 302 => "FOUND"
  | 404 => "NOT_FOUND"
  | 500 => "INTERNAL_SERVER_ERROR"
  | _ => "UNRECOGNIZED_STATUS_CODE"

/-- `Host.h_defaults['h_allowed_methods']`: the default permitted-method
frozenset; the list fixes one iteration order for the unordered Python set. -/
def h_defaults_allowed_methods : List String :=
  ["GET", "HEAD", "POST", "PUT", "PATCH", "DELETE", "OPTIONS"]

/-- `Host` state: the name set, the canonical name, the permitted methods,
the mount-path → `Partition` dictionary and the prefix-index keys
(`h_root`). -/
structure Host where
  h_names : List String
  h_canonical : Option String
  h_allowed_methods : List String
  h_partitions : List (String × Partition)
  h_root : List String
deriving DecidableEq, Repr

/-- `Host.strcache`: `str(obj).encode('ascii')` for the integer status code.
The lru-cache wrapper is a pure memoization and is dropped. -/
def Host.strcache (obj : Nat) : String :=
  toString obj

/-- `Host.descriptioncache`:
`http.protocoldata.codes[obj].replace('_', ' ')` — the replacement pattern
is the single character underscore, so it is modelled character-wise. -/
def Host.descriptioncache (obj : Nat) : String :=
  String.mk ((protocoldata_codes obj).data.map
    (fun ch => if ch = '_' then ' ' else ch))

/-- `Host.h_update_names`. -/
def Host.h_update_names (h : Host) (names : List String) : Host :=
  { h with h_names := names, h_canonical := names.head? }

/-- `Host.h_configure`: builds the mount-path dictionary from the partitions
(a plain `dict` build — a later partition with the same mount path replaces
the earlier binding) and indexes its keys.  The dispatch of each partition
transaction is lifecycle machinery modelled separately. -/
def Host.h_configure (h : Host) (partitions : List Partition) : Host :=
  let hp := partitions.foldl (fun d partctx => dictInsert d partctx.part_path partctx) []
  { h with h_partitions := hp, h_root := hp.map (fun e => e.1) }

/-- The XML error document of `Host.h_error`: `b''.join([...])` of the fixed
fragments with the encoded code and description spliced in. -/
def errdocument (code_bytes description_bytes : String) : String :=
  String.join [
    "<?xml version=\"1.0\" encoding=\"ascii\"?>",
    "<?xml-stylesheet type=\"text/xsl\" href=\"",
    "/sys/error.xsl",
    "\"?>",
    "<error xmlns=\"http://if.fault.io/xml/failure\" domain=\"/internet/http\">",
    "<frame code=\"" ++ code_bytes ++ "\" message=\"" ++ description_bytes ++ "\"/>",
    "</error>"]

/-- `Host.h_error`: renders the XML error document and frames it as the
response (`set_response(code, description, len(errmsg), cotype=b'text/xml')`
followed by `http_iterate_output([(errmsg,)])`).  `strcache` applied to the
description string is the identity on its ASCII text. -/
def Host.h_error (_h : Host) (ctl : Controller) (code : Nat)
    (_exc : Option String) (description : Option String) : Controller :=
  let code_bytes := Host.strcache code
  let descr :=
    match description with
    | none => Host.descriptioncache code
    | some d => d
  let description_bytes := descr
  let errmsg := errdocument code_bytes description_bytes
  let c := ctl.set_response code_bytes description_bytes
    (some errmsg.utf8ByteSize) (some "text/xml")
  c.http_iterate_output [errmsg]

/-- The concrete error document rendered for the default 404 fallback. -/
def errdoc404 : String :=
  errdocument (Host.strcache 404) (Host.descriptioncache 404)

/-- `Host.h_options_request`: handles `OPTIONS * HTTP/x.x` —
`Allow: b','.join(list(h_allowed_methods))`, `204 NO CONTENT` with no
length, then terminate body acceptance and connect an empty body. -/
def Host.h_options_request (h : Host) (ctl : Controller) : Controller :=
  let c := ctl.add_header "Allow" (String.intercalate "," h.h_allowed_methods)
  let c := c.set_response "204" "NO CONTENT" none none
  let c := c.accept none
  c.connect none

/-- `Host.h_fallback`: accept (discard) the request body, then emit the
default `404` error document. -/
def Host.h_fallback (h : Host) (ctl : Controller) : Controller :=
  h.h_error (ctl.accept none) 404 none none

/-- `Partition.part_select` (base class). -/
def Partition.part_select (_p : Partition) (host : Host) (ctl : Controller) :
    Controller :=
  host.h_error (ctl.accept none) 500 none (some "MISCONFIGURED")

/-- `Host.h_route`: look the request path up in the prefix index; on a miss,
`OPTIONS *` is answered directly and anything else falls back; on a match,
the partition mounted at the returned prefix handles the request.  The
`h_partitions` lookup cannot miss because `h_root` is built from its keys
(the identity branch models the impossible `KeyError`). -/
def Host.h_route (h : Host) (ctl : Controller) : Controller :=
  let path := ctl.request.pathstring
  match scanGet h.h_root path with
  | none =>
    if path = "*" ∧ ctl.request.method = "OPTIONS" then
      h.h_options_request ctl
    else
      h.h_fallback ctl
  | some initial =>
    match dictGet h.h_partitions initial with
    | some partition => partition.part_select h ctl
    | none => ctl

/-- One request descriptor of a pipelined batch:
`(connect_out, (channel_id, (method, uri, headers), connect_input))`.  The
transport hooks are represented by the controller's observable trace. -/
structure Descriptor where
  channel_id : Nat
  method : String
  uri : String
  headers : List (String × String)
deriving DecidableEq, Repr

/-- The `http.Structures` built for a descriptor.  The source injects
`(b':Method', method)` and `(b':URI', uri)` as pseudo headers before
parsing; the model passes both fields directly. -/
def Descriptor.structures (d : Descriptor) : Structures :=
  Structures.ofParameters d.method d.uri d.headers

/-- The `Controller` allocated for a descriptor. -/
def Descriptor.controller (d : Descriptor) : Controller :=
  Controller.init d.structures d.channel_id

/-- `Host.h_accept`: allocate a controller per accepted descriptor and route
each with `h_route`, in pipeline order. -/
def Host.h_accept (h : Host) (batch : List Descriptor) : List Controller :=
  batch.map (fun d => h.h_route d.controller)

/-- `Network` state: the hostname → `Host` (weak value) dictionary and the
designated default hostname (`http_default_host`, a class attribute whose
baseline is `None`). -/
structure Network where
  http_hosts : List (String × Host)
  http_default_host : Option String
deriving DecidableEq, Repr

/-- `Network.net_dispatch`: dispatches the host transaction and registers the
host under each of its names (`self.http_hosts[h_name] = host`). -/
def Network.net_dispatch (n : Network) (host : Host) : Network :=
  { n with
    http_hosts := host.h_names.foldl
      (fun d h_name => dictInsert d h_name host) n.http_hosts }

/-- `Network.net_select_host`:
`self.http_hosts.get(name) or self.http_hosts[self.http_default_host]`.
A `none` result models the `KeyError` raised when the fallback lookup of the
default name fails (including the `http_default_host is None` case). -/
def Network.net_select_host (n : Network) (name : Option String) : Option Host :=
  match name.bind (dictGet n.http_hosts) with
  | some h => some h
  | none => n.http_default_host.bind (dictGet n.http_hosts)

/-- `Network.actuate`: dispatches every host of `_hostsrc`.  No validation of
`http_default_host` is performed at configuration time. -/
def Network.actuate (n : Network) (hostsrc : List Host) : Network :=
  hostsrc.foldl Network.net_dispatch n

/-- `Network.net_accept`: select the host from the *first* descriptor's
`Host` header, then build and route a controller per descriptor in pipeline
order, every one through that same host.  `none` models the `ValueError` of
unpacking an empty batch and the `KeyError` of a failed host selection.
The source also rebinds the connection's acceptor to `h.h_accept`
(`invp.i_update`), an external-transport effect with the same per-host
routing. -/
def Network.net_accept (n : Network) (batch : List Descriptor) :
    Option (Host × List Controller) :=
  match batch with
  | [] => none
  | first :: remainder =>
    match n.net_select_host first.structures.host with
    | none => none
    | some h =>
      let ctl := h.h_route first.controller
      let rest := remainder.map (fun d => h.h_route d.controller)
      some (h, ctl :: rest)

/-- Modelled from the spec: the lifecycle phases of the external kernel's
transaction contexts (`..kernel.core`, outside `src/`): a component is
functioning, then terminating after `start_termination`, then terminated
after `finish_termination`. -/
inductive Phase where
  | functioning
  | terminating
  | terminated
deriving DecidableEq, Repr

/-- Modelled from the spec: the lifecycle state a `Network`, `Host` or
`Partition` context builds on — its own phase plus the phases of the child
transactions it dispatched (`self.controller.subtransactions`). -/
structure Component where
  phase : Phase
  children : List Phase
deriving DecidableEq, Repr

/-- Modelled from the spec: the kernel's `functioning` predicate — actuated
and not yet terminating or terminated. -/
def Component.functioning (c : Component) : Bool :=
  match c.phase with
  | Phase.functioning => true
  | _ => false

/-- Modelled from the spec: `start_termination` moves the component into its
terminating phase. -/
def start_termination (c : Component) : Component :=
  { c with phase := Phase.terminating }

/-- Modelled from the spec: `finish_termination` completes the termination. -/
def finish_termination (c : Component) : Component :=
  { c with phase := Phase.terminated }

/-- Modelled from the spec: the effect of `x.terminate()` on one child
transaction's phase — a functioning child starts terminating; a child that
is already terminating or terminated keeps its phase (the source guards of
`Network.terminate` and `Partition.terminate`, and the completion of a
finished child's re-entrant cascade, make re-termination a no-op). -/
def childTerminate (p : Phase) : Phase :=
  match p with
  | Phase.functioning => Phase.terminating
  | q => q

/-- Shared `xact_void` body of the three classes: once the transaction is
voided while terminating, the termination finishes. -/
def xact_void_step (c : Component) : Component :=
  if c.phase == Phase.terminating then finish_termination c else c

/-- Modelled from the spec: `xact_exit_if_empty` voids the transaction once
no child reports remaining active work, triggering `xact_void`. -/
def xact_exit_if_empty (c : Component) : Component :=
  if c.children.all (fun p => p == Phase.terminated) then xact_void_step c
  else c

/-- `Network.terminate`: guarded by `functioning`, then start termination,
cascade to every subtransaction, and void when already empty. -/
def Network.terminate (c : Component) : Component :=
  if c.functioning then
    let c := start_termination c
    let c := { c with children := c.children.map childTerminate }
    xact_exit_if_empty c
  else c

/-- `Host.terminate`: identical cascade, but the source has no
`functioning` guard. -/
def Host.terminate (c : Component) : Component :=
  let c := start_termination c
  let c := { c with children := c.children.map childTerminate }
  xact_exit_if_empty c

/-- `Partition.terminate`: guarded by `functioning`, like the network. -/
def Partition.terminate (c : Component) : Component :=
  if c.functioning then
    let c := start_termination c
    let c := { c with children := c.children.map childTerminate }
    xact_exit_if_empty c
  else c

/-- A sample parsed request used by concrete evaluations. -/
def sampleRequest : Structures :=
  { method := "GET", pathstring := "/", host := some "example", final := false }

/-- The `OPTIONS *` request of the asterisk-form decision row. -/
def optionsRequest : Structures :=
  { method := "OPTIONS", pathstring := "*", host := some "example", final := false }

/-- A request whose path matches no mounted path. -/
def nomatchRequest : Structures :=
  { method := "GET", pathstring := "/nomatch", host := some "example", final := false }

/-- A host with no partitions and the default configuration. -/
def hostA : Host :=
  { h_names := ["example"], h_canonical := some "example"
    h_allowed_methods := h_defaults_allowed_methods
    h_partitions := [], h_root := [] }

/-- A second host, distinguishable from `hostA`. -/
def hostB : Host :=
  { h_names := ["other"], h_canonical := some "other"
    h_allowed_methods := h_defaults_allowed_methods
    h_partitions := [], h_root := [] }

/-- A network holding `hostA` under its name with "example" as default. -/
def netWithDefault : Network :=
  { http_hosts := [("example", hostA)], http_default_host := some "example" }

/-- A network with no registered hosts and no default name. -/
def netNoDefault : Network :=
  { http_hosts := [], http_default_host := none }

/-- A network holding both hosts, with no default. -/
def netAB : Network :=
  { http_hosts := [("example", hostA), ("other", hostB)]
    http_default_host := none }

/-- First pipelined descriptor, addressed to host "example". -/
def descrA : Descriptor :=
  { channel_id := 1, method := "GET", uri := "/one", headers := [("Host", "example")] }

/-- Second pipelined descriptor, carrying a *different* `Host` header. -/
def descrB : Descriptor :=
  { channel_id := 2, method := "GET", uri := "/two", headers := [("Host", "other")] }

theorem set_response_response (c : Controller) (code descr : String)
    (length : Option Nat) (cotype : Option String) :
    (c.set_response code descr length cotype).response = some (code, descr, length) := by
  cases cotype with
  | none => rfl
  | some t => cases length <;> rfl

/-- C1: counterexample — on a concrete controller, a second `set_response`
call does not fail: it silently replaces the previously framed response
tuple with the new one. -/
theorem set_response_second_call_silent_cex :
    ((((Controller.init sampleRequest 1).set_response "200" "OK" (some 5) none).set_response
        "404" "NOT FOUND" (some 3) none).response = some ("404", "NOT FOUND", some 3)) ∧
    (((Controller.init sampleRequest 1).set_response "200" "OK" (some 5) none).set_response
        "404" "NOT FOUND" (some 3) none) ≠
      ((Controller.init sampleRequest 1).set_response "200" "OK" (some 5) none) := by
  constructor
  · rfl
  · decide

/-- C1 (amended): `set_response` performs no once-only check — a second call
on the same controller never faults and silently overwrites the stored
response status, description and length with the new values. -/
theorem set_response_second_call_overwrites (c : Controller)
    (code₁ descr₁ code₂ descr₂ : String) (l₁ l₂ : Option Nat)
    (cot₁ cot₂ : Option String) :
    ((c.set_response code₁ descr₁ l₁ cot₁).set_response code₂ descr₂ l₂ cot₂).response
      = some (code₂, descr₂, l₂) :=
  set_response_response _ _ _ _ _

/-- C10: `http_continue` raises unconditionally — for every controller and
every header list, including a controller with no response set, the interim
continue emitter fails, so a 100-continue interim response is never
produced. -/
theorem http_continue_always_faults (c : Controller)
    (headers : List (String × String)) :
    c.http_continue headers = Except.error "not supported" := rfl

/-- C4: counterexample — `set_response` with length `none` and no content
type (exactly the `h_options_request` call) frames the response without any
chunked transfer-encoding marker header. -/
theorem set_response_no_cotype_no_framing_cex :
    (("Transfer-Encoding", "chunked") ∉
      ((Controller.init sampleRequest 1).set_response "204" "NO CONTENT" none none).response_headers) ∧
    ((Controller.init sampleRequest 1).set_response "204" "NO CONTENT" none none).response
      = some ("204", "NO CONTENT", none) := by
  constructor
  · decide
  · rfl

/-- C4 (amended): the framing headers are added only when a content type is
supplied to `set_response`: then length `none` appends the chunked
transfer-encoding marker and a known integer length appends a
content-length header equal to that integer; without a content type no
framing header is appended at all. -/
theorem set_response_framing_headers (c : Controller) (code descr cotype : String)
    (n : Nat) (l : Option Nat) :
    ((c.set_response code descr none (some cotype)).response_headers =
        c.response_headers ++ [("Content-Type", cotype), ("Transfer-Encoding", "chunked")]) ∧
    ((c.set_response code descr (some n) (some cotype)).response_headers =
        c.response_headers ++ [("Content-Type", cotype), ("Content-Length", toString n)]) ∧
    ((c.set_response code descr l none).response_headers = c.response_headers) := by
  refine ⟨?_, ?_, ?_⟩ <;>
    simp [Controller.set_response, Controller.http_content_headers,
      Controller.add_header]

/-- C8: counterexample — the partition mounted at "/x" stores depth `0`
although "/x" contains one path separator. -/
theorem part_depth_cex :
    ((Partition.init "/x").part_depth = 0) ∧
    (separatorCount "/x" = 1) ∧
    ((Partition.init "/x").part_depth ≠ (separatorCount "/x" : Int)) := by
  decide

/-- C8 (amended): the stored derived depth equals the count of path
separators in the mount path minus one (so a separatorless path stores
`-1`). -/
theorem part_depth_eq_separator_count_minus_one (path : String) :
    (Partition.init path).part_depth + 1 = (separatorCount path : Int) := by
  simp [Partition.init]



theorem dictGet_nil {α : Type} (k : String) :
    dictGet ([] : List (String × α)) k = none := rfl

theorem dictGet_cons {α : Type} (e : String × α) (es : List (String × α))
    (k : String) :
    dictGet (e :: es) k = if e.1 = k then some e.2 else dictGet es k := by
  simp only [dictGet, List.find?]
  cases hbeq : e.1 == k
  · rw [if_neg (by simpa using hbeq)]
  · rw [if_pos (by simpa using hbeq)]
    rfl

theorem dictInsert_cons {α : Type} (e : String × α) (es : List (String × α))
    (k : String) (v : α) :
    dictInsert (e :: es) k v =
      if e.1 = k then (k, v) :: es else e :: dictInsert es k v := by
  simp only [dictInsert]
  by_cases h : e.1 = k
  · rw [if_pos (by simpa using h), if_pos h]
  · rw [if_neg (by simpa using h), if_neg h]

theorem dictGet_dictInsert_self {α : Type} (d : List (String × α)) (k : String)
    (v : α) : dictGet (dictInsert d k v) k = some v := by
  induction d with
  | nil => simp [dictInsert, dictGet_cons, dictGet_nil]
  | cons e es ih =>
    rw [dictInsert_cons]
    by_cases he : e.1 = k
    · rw [if_pos he, dictGet_cons, if_pos rfl]
    · rw [if_neg he, dictGet_cons, if_neg he]
      exact ih

theorem dictGet_dictInsert_ne {α : Type} (d : List (String × α))
    (k k' : String) (v : α) (hne : k' ≠ k) :
    dictGet (dictInsert d k v) k' = dictGet d k' := by
  induction d with
  | nil =>
    show dictGet [(k, v)] k' = dictGet [] k'
    rw [dictGet_cons, if_neg (fun h => hne h.symm)]
  | cons e es ih =>
    rw [dictInsert_cons]
    by_cases he : e.1 = k
    · rw [if_pos he, dictGet_cons, dictGet_cons, if_neg (fun h => hne h.symm),
        if_neg (fun h => hne (he ▸ h).symm)]
    · rw [if_neg he, dictGet_cons, dictGet_cons]
      by_cases he' : e.1 = k'
      · rw [if_pos he', if_pos he']
      · rw [if_neg he', if_neg he']
        exact ih

theorem mem_dictInsert_keys {α : Type} (d : List (String × α)) (k : String)
    (v : α) (x : String) :
    x ∈ (dictInsert d k v).map Prod.fst ↔ x = k ∨ x ∈ d.map Prod.fst := by
  induction d with
  | nil => simp [dictInsert]
  | cons e es ih =>
    rw [dictInsert_cons]
    by_cases he : e.1 = k
    · rw [if_pos he]
      simp [he]
    · rw [if_neg he]
      simp [ih]
      tauto

theorem dictInsert_keys_nodup {α : Type} (d : List (String × α)) (k : String)
    (v : α) (hd : (d.map Prod.fst).Nodup) :
    ((dictInsert d k v).map Prod.fst).Nodup := by
  induction d with
  | nil => simp [dictInsert]
  | cons e es ih =>
    rw [List.map_cons, List.nodup_cons] at hd
    rw [dictInsert_cons]
    by_cases he : e.1 = k
    · rw [if_pos he]
      exact List.nodup_cons.mpr ⟨he ▸ hd.1, hd.2⟩
    · rw [if_neg he, List.map_cons, List.nodup_cons]
      refine ⟨?_, ih hd.2⟩
      intro hmem
      rcases (mem_dictInsert_keys es k v e.1).mp hmem with h | h
      · exact he h
      · exact hd.1 h

theorem find?_append_match {α : Type} (l₁ l₂ : List α) (p : α → Bool) :
    (l₁ ++ l₂).find? p =
      match l₁.find? p with
      | some a => some a
      | none => l₂.find? p := by
  induction l₁ with
  | nil => simp
  | cons a as ih =>
    cases hpa : p a <;> simp [List.find?, hpa, ih]

theorem foldl_dictGet (parts : List Partition)
    (d : List (String × Partition)) (k : String) :
    dictGet (parts.foldl (fun acc p => dictInsert acc p.part_path p) d) k =
      match parts.reverse.find? (fun p => p.part_path == k) with
      | some p => some p
      | none => dictGet d k := by
  induction parts generalizing d with
  | nil => simp
  | cons p ps ih =>
    rw [List.foldl_cons, ih, List.reverse_cons, find?_append_match]
    cases hf : ps.reverse.find? (fun q => q.part_path == k) with
    | some q => rfl
    | none =>
      by_cases hk : p.part_path = k
      · simp [List.find?, hk, dictGet_dictInsert_self]
      · have hbeq : (p.part_path == k) = false := by simpa using hk
        simp only [List.find?, hbeq]
        exact dictGet_dictInsert_ne d p.part_path k p (fun h => hk h.symm)

theorem foldl_keys_nodup (parts : List Partition)
    (d : List (String × Partition)) (hd : (d.map Prod.fst).Nodup) :
    (((parts.foldl (fun acc p => dictInsert acc p.part_path p) d)).map Prod.fst).Nodup := by
  induction parts generalizing d with
  | nil => exact hd
  | cons p ps ih =>
    exact ih _ (dictInsert_keys_nodup d p.part_path p hd)

theorem mem_foldl_keys (parts : List Partition)
    (d : List (String × Partition)) (x : String) :
    x ∈ ((parts.foldl (fun acc p => dictInsert acc p.part_path p) d)).map Prod.fst ↔
      x ∈ parts.map Partition.part_path ∨ x ∈ d.map Prod.fst := by
  induction parts generalizing d with
  | nil => simp
  | cons p ps ih =>
    rw [List.foldl_cons, ih, mem_dictInsert_keys]
    simp only [List.map_cons, List.mem_cons]
    tauto

/-- C2: counterexample — configuring a host with two partitions sharing the
mount path "/x" does not fail: it produces a configured host whose
dictionary and prefix index silently hold a single entry for "/x". -/
theorem h_configure_duplicate_mounts_cex :
    ((hostA.h_configure [Partition.init "/x", Partition.init "/x"]).h_partitions
      = [("/x", Partition.init "/x")]) ∧
    ((hostA.h_configure [Partition.init "/x", Partition.init "/x"]).h_root
      = ["/x"]) := by
  constructor <;> rfl

/-- C2 (amended): `h_configure` never rejects duplicate mount paths — the
dictionary build silently deduplicates them: the configured index holds each
mount path at most once, a path is indexed exactly when some partition
carries it, the prefix index is the key list of the dictionary, and the
partition stored for a path is the *last* partition of the argument list
mounted there. -/
theorem h_configure_silently_dedups (h : Host) (parts : List Partition) :
    (((h.h_configure parts).h_partitions.map Prod.fst).Nodup) ∧
    ((h.h_configure parts).h_root = (h.h_configure parts).h_partitions.map Prod.fst) ∧
    (∀ k, dictGet (h.h_configure parts).h_partitions k =
      parts.reverse.find? (fun p => p.part_path == k)) ∧
    (∀ x, x ∈ (h.h_configure parts).h_root ↔ x ∈ parts.map Partition.part_path) := by
  refine ⟨foldl_keys_nodup parts [] (by simp), rfl, ?_, ?_⟩
  · intro k
    rw [Host.h_configure]
    rw [foldl_dictGet parts [] k]
    cases hf : parts.reverse.find? (fun p => p.part_path == k) <;> rfl
  · intro x
    rw [Host.h_configure]
    simpa using mem_foldl_keys parts [] x

theorem net_dispatch_default (n : Network) (h : Host) :
    (n.net_dispatch h).http_default_host = n.http_default_host := rfl

theorem actuate_default (n : Network) (hostsrc : List Host) :
    (Network.actuate n hostsrc).http_default_host = n.http_default_host := by
  induction hostsrc generalizing n with
  | nil => rfl
  | cons hh hs ih => exact ih (n.net_dispatch hh)

/-- C3: counterexample — a network configured with no default hostname
actuates without any error (configuration-time detection is absent), yet
selecting an unregistered hostname afterwards fails at request time (the
`none` models the `KeyError` raised inside `net_select_host`). -/
theorem net_select_no_default_cex :
    (Network.actuate netNoDefault [] = netNoDefault) ∧
    (netNoDefault.net_select_host (some "example.com") = none) := by
  constructor <;> rfl

/-- C3 (amended): for a hostname that is absent or unregistered,
`net_select_host` returns the host registered under the configured default
name; when no default is configured (or the default name is itself
unregistered) and the name has no match, `net_select_host` itself raises a
`KeyError` at selection (request) time — actuation performs no
configuration-time validation of the default name. -/
theorem net_select_host_default_fallback (n : Network) (name : Option String) :
    (∀ d hd, name.bind (dictGet n.http_hosts) = none →
        n.http_default_host = some d → dictGet n.http_hosts d = some hd →
        n.net_select_host name = some hd) ∧
    (n.http_default_host = none → name.bind (dictGet n.http_hosts) = none →
        n.net_select_host name = none) ∧
    (∀ hostsrc : List Host,
        (Network.actuate n hostsrc).http_default_host = n.http_default_host) := by
  refine ⟨?_, ?_, actuate_default n⟩
  · intro d hd h1 h2 h3
    simp [Network.net_select_host, h1, h2, h3]
  · intro h1 h2
    simp [Network.net_select_host, h1, h2]

/-- C3 witness: on `netWithDefault` the unregistered name "nope" selects the
default host `hostA`; on `netNoDefault` it fails at selection time. -/
theorem net_select_host_default_fallback_witness :
    (netWithDefault.net_select_host (some "nope") = some hostA) ∧
    (netNoDefault.net_select_host (some "nope") = none) := by
  constructor
  · exact (net_select_host_default_fallback netWithDefault (some "nope")).1
      "example" hostA rfl rfl rfl
  · exact (net_select_host_default_fallback netNoDefault (some "nope")).2.1 rfl rfl

/-- C7: `net_accept` resolves the target host once, from the *first*
descriptor's `Host` header, and routes every descriptor of the batch —
later ones included, whatever `Host` header they carry — through that same
host, building and routing the controllers in pipeline order. -/
theorem net_accept_single_host (n : Network) (first : Descriptor)
    (remainder : List Descriptor) (h : Host)
    (hsel : n.net_select_host first.structures.host = some h) :
    n.net_accept (first :: remainder) =
      some (h, (first :: remainder).map (fun d => h.h_route d.controller)) := by
  simp [Network.net_accept, hsel]

/-- C7 witness: a two-request batch whose second descriptor names the
*other* registered host is still routed entirely through `hostA`, the host
selected from the first descriptor. -/
theorem net_accept_single_host_witness :
    netAB.net_accept [descrA, descrB] =
      some (hostA, [hostA.h_route descrA.controller, hostA.h_route descrB.controller]) := by
  have h := net_accept_single_host netAB descrA [descrB] hostA rfl
  simpa using h

theorem functioning_eq_false (c : Component)
    (h : c.phase ≠ Phase.functioning) : c.functioning = false := by
  obtain ⟨ph, ch⟩ := c
  cases ph with
  | functioning => exact absurd rfl h
  | terminating => rfl
  | terminated => rfl

theorem map_childTerminate_id (ch : List Phase)
    (h : ∀ p ∈ ch, p ≠ Phase.functioning) : ch.map childTerminate = ch := by
  induction ch with
  | nil => rfl
  | cons p ps ih =>
    have hp : childTerminate p = p := by
      cases p with
      | functioning => exact absurd rfl (h _ (List.mem_cons_self _ _))
      | terminating => rfl
      | terminated => rfl
    rw [List.map_cons, hp, ih (fun q hq => h q (List.mem_cons_of_mem _ hq))]

/-- C9: re-terminating an already-terminating or already-terminated
`Network`, `Host` or `Partition` leaves its lifecycle state unchanged and
raises nothing.  The hypotheses are the reachable-state invariants of the
cascade: children of a non-functioning component are no longer functioning,
a terminated component has only terminated children, and a component still
terminating has a child with remaining work (otherwise the last-child
callback would already have finished it). -/
theorem terminate_idempotent_nonfunctioning (c : Component)
    (hphase : c.phase ≠ Phase.functioning)
    (hchild : ∀ p ∈ c.children, p ≠ Phase.functioning)
    (hfinished : c.phase = Phase.terminated →
      ∀ p ∈ c.children, p = Phase.terminated)
    (hpending : c.phase = Phase.terminating →
      ¬ (∀ p ∈ c.children, p = Phase.terminated)) :
    Network.terminate c = c ∧ Host.terminate c = c ∧ Partition.terminate c = c := by
  have hfunc : c.functioning = false := functioning_eq_false c hphase
  refine ⟨by simp [Network.terminate, hfunc], ?_, by simp [Partition.terminate, hfunc]⟩
  obtain ⟨ph, ch⟩ := c
  have hmap : ch.map childTerminate = ch := map_childTerminate_id ch hchild
  show xact_exit_if_empty ⟨Phase.terminating, ch.map childTerminate⟩ = ⟨ph, ch⟩
  rw [hmap]
  cases ph with
  | functioning => exact absurd rfl hphase
  | terminating =>
    have hnall := hpending rfl
    have hall : ch.all (fun p => p == Phase.terminated) = false := by
      cases hb : ch.all (fun p => p == Phase.terminated) with
      | false => rfl
      | true =>
        exact absurd (fun p hp => by simpa using List.all_eq_true.mp hb p hp) hnall
    simp [xact_exit_if_empty, hall]
  | terminated =>
    have hall : ch.all (fun p => p == Phase.terminated) = true :=
      List.all_eq_true.mpr (fun p hp => by simpa using hfinished rfl p hp)
    simp [xact_exit_if_empty, hall, xact_void_step, finish_termination]

/-- C9 witness: a terminated component with one terminated child is left
unchanged by all three terminate implementations. -/
theorem terminate_idempotent_witness :
    (Network.terminate ⟨Phase.terminated, [Phase.terminated]⟩
      = ⟨Phase.terminated, [Phase.terminated]⟩) ∧
    (Host.terminate ⟨Phase.terminated, [Phase.terminated]⟩
      = ⟨Phase.terminated, [Phase.terminated]⟩) ∧
    (Partition.terminate ⟨Phase.terminated, [Phase.terminated]⟩
      = ⟨Phase.terminated, [Phase.terminated]⟩) :=
  terminate_idempotent_nonfunctioning ⟨Phase.terminated, [Phase.terminated]⟩
    (by decide) (by decide) (by decide) (by decide)

/-- C5: on a request path matching no mounted prefix, the exact `*` path
with method `OPTIONS` is answered with `204 NO CONTENT`, an `Allow` header
joining the host's permitted methods, terminated body acceptance and an
empty body; every other unmatched request goes to the fallback, which
accepts and discards the request body and emits the structured 404 error
response.  The default permitted-method list joins to
`GET,HEAD,POST,PUT,PATCH,DELETE,OPTIONS`, exactly the default method set. -/
theorem h_route_no_prefix_match (h : Host) (ctl : Controller)
    (hmiss : scanGet h.h_root ctl.request.pathstring = none) :
    ((ctl.request.pathstring = "*" ∧ ctl.request.method = "OPTIONS") →
      ((h.h_route ctl).response = some ("204", "NO CONTENT", none) ∧
       (h.h_route ctl).accepted = ctl.accepted ++ [none] ∧
       (h.h_route ctl).response_headers =
         (ctl.response_headers ++
           [("Allow", String.intercalate "," h.h_allowed_methods)]) ++
           (if ctl.request.final then [("Connection", "close")] else []) ∧
       (h.h_route ctl).connected = ctl.connected ++
         [⟨some ("204", "NO CONTENT", none),
           (ctl.response_headers ++
             [("Allow", String.intercalate "," h.h_allowed_methods)]) ++
             (if ctl.request.final then [("Connection", "close")] else []),
           none⟩])) ∧
    (¬ (ctl.request.pathstring = "*" ∧ ctl.request.method = "OPTIONS") →
      (h.h_route ctl = h.h_fallback ctl ∧
       (h.h_route ctl).accepted = ctl.accepted ++ [none] ∧
       (h.h_route ctl).response =
         some ("404", "NOT FOUND",
           some (errdocument (Host.strcache 404) (Host.descriptioncache 404)).utf8ByteSize) ∧
       (h.h_route ctl).connected.map OutputRegistration.channel =
         ctl.connected.map OutputRegistration.channel ++
           [some [errdocument (Host.strcache 404) (Host.descriptioncache 404)]])) ∧
    (String.intercalate "," h_defaults_allowed_methods =
      "GET,HEAD,POST,PUT,PATCH,DELETE,OPTIONS" ∧
     h_defaults_allowed_methods.toFinset =
      ({"GET", "HEAD", "POST", "PUT", "PATCH", "DELETE", "OPTIONS"} : Finset String)) := by
  refine ⟨?_, ?_, rfl, by decide⟩
  · rintro ⟨hp, hm⟩
    have hroute : h.h_route ctl = h.h_options_request ctl := by
      rw [Host.h_route, hmiss]
      simp [hp, hm]
    rw [hroute]
    by_cases hf : ctl.request.final <;>
      simp [Host.h_options_request, Controller.add_header, Controller.set_response,
        Controller.accept, Controller.connect, hf]
  · intro hn
    have hroute : h.h_route ctl = h.h_fallback ctl := by
      rw [Host.h_route, hmiss]
      simp [hn]
    have hstr : Host.strcache 404 = "404" := rfl
    have hdescr : Host.descriptioncache 404 = "NOT FOUND" := rfl
    refine ⟨hroute, ?_, ?_, ?_⟩ <;>
      rw [hroute] <;>
      by_cases hf : ctl.request.final <;>
        simp [Host.h_fallback, Host.h_error, Controller.accept, Controller.set_response,
          Controller.http_content_headers, Controller.add_header,
          Controller.http_iterate_output, Controller.connect, hf, hstr, hdescr]

/-- C5 witness: on `hostA` (no partitions, default methods), the concrete
`OPTIONS *` request receives the 204 response with terminated body
acceptance. -/
theorem h_route_no_prefix_match_witness :
    ((hostA.h_route (Controller.init optionsRequest 2)).response
      = some ("204", "NO CONTENT", none)) ∧
    ((hostA.h_route (Controller.init optionsRequest 2)).accepted = [none]) := by
  have h := h_route_no_prefix_match hostA (Controller.init optionsRequest 2) rfl
  have ho := h.1 ⟨rfl, rfl⟩
  exact ⟨ho.1, by simpa [Controller.init] using ho.2.1⟩

set_option maxRecDepth 8192 in
/-- C6: the fallback for a request matching no mounted prefix (outside the
`OPTIONS *` case) emits the deterministic XML error document — a fixed
concatenation referencing the stylesheet resource `/sys/error.xsl` and
embedding the code `404` and its description verbatim — as a plain-ASCII
body whose byte length is exactly the declared content length of the framed
response. -/
theorem h_route_fallback_error_document (h : Host) (ctl : Controller)
    (hmiss : scanGet h.h_root ctl.request.pathstring = none)
    (hnot : ¬ (ctl.request.pathstring = "*" ∧ ctl.request.method = "OPTIONS")) :
    (errdoc404 =
      "<?xml version=\"1.0\" encoding=\"ascii\"?><?xml-stylesheet type=\"text/xsl\" href=\"" ++
      "/sys/error.xsl" ++
      "\"?><error xmlns=\"http://if.fault.io/xml/failure\" domain=\"/internet/http\"><frame code=\"" ++
      "404" ++ "\" message=\"" ++ "NOT FOUND" ++ "\"/></error>") ∧
    (∀ ch ∈ errdoc404.data, ch.toNat < 128) ∧
    (errdoc404.utf8ByteSize = errdoc404.length) ∧
    ((h.h_route ctl).response = some ("404", "NOT FOUND", some errdoc404.utf8ByteSize)) ∧
    ((h.h_route ctl).connected = ctl.connected ++
      [⟨some ("404", "NOT FOUND", some errdoc404.utf8ByteSize),
        (ctl.response_headers ++
          [("Content-Type", "text/xml"),
           ("Content-Length", toString errdoc404.utf8ByteSize)]) ++
          (if ctl.request.final then [("Connection", "close")] else []),
        some [errdoc404]⟩]) := by
  have hroute : h.h_route ctl = h.h_fallback ctl := by
    rw [Host.h_route, hmiss]
    simp [hnot]
  have hstr : Host.strcache 404 = "404" := rfl
  have hdescr : Host.descriptioncache 404 = "NOT FOUND" := rfl
  refine ⟨rfl, by decide, by decide, ?_, ?_⟩ <;>
    rw [hroute] <;>
    by_cases hf : ctl.request.final <;>
      simp [Host.h_fallback, Host.h_error, errdoc404, Controller.accept,
        Controller.set_response, Controller.http_content_headers,
        Controller.add_header, Controller.http_iterate_output,
        Controller.connect, hf, hstr, hdescr]

/-- C6 witness: the concrete `/nomatch` request on `hostA` receives the 404
response framed with the document's own byte length and the document body. -/
theorem h_route_fallback_error_document_witness :
    ((hostA.h_route (Controller.init nomatchRequest 3)).response
      = some ("404", "NOT FOUND", some errdoc404.utf8ByteSize)) ∧
    ((hostA.h_route (Controller.init nomatchRequest 3)).connected.map
        OutputRegistration.channel = [some [errdoc404]]) := by
  have h := h_route_fallback_error_document hostA (Controller.init nomatchRequest 3)
    rfl (by decide)
  refine ⟨h.2.2.2.1, ?_⟩
  rw [h.2.2.2.2]
  rfl
